import Mathlib

/-!
Shallow embedding of the ClearCheck approval dashboard (src/appp.py).

The dashboard is a straight-line script: load a table of approval records,
filter by sidebar inputs (technician, date range), add derived per-record
fields, and compute aggregates (KPIs, fast-rate sweep, session blocks,
worst-case table, Arnold before/after policy summary).

Modelling conventions:
* A pandas row becomes an `ApprovalRecord`; the dataframe becomes a
  `List ApprovalRecord` (load-time cleaning is the Data Provider's job and
  is out of scope, so the list is taken as given).
* Timestamps are integers (seconds since the Unix epoch); a date input from
  the sidebar is an integer day index, and `pd.to_datetime(date)` is
  midnight of that day (`startOfDay`).
* `DURATION_SEC` is a rational number (the CSV column is numeric and the
  loader keeps only non-negative values; no nonnegativity is assumed here
  unless a claim needs it).
* pandas reductions that yield `NaN` on empty input (`mean`, `median`) are
  modelled as `Option ℚ` with `none` for `NaN`.
* `DataFrame.sort_values` is modelled as a stable sort (`List.mergeSort`).
  The program's default `kind='quicksort'` does not guarantee the order of
  tied keys, so no theorem relies on the modelled tie order: the segmenter
  claims are insensitive to the order of tied timestamps, and the
  worst-case claim treats the missing stability as a code defect (C7).
* Python's `round(x, 2)` (round half to even, 2 decimal places) is modelled
  exactly over ℚ by `round2`.
-/

namespace ClearCheck

/-- One row of the approval table: `TECHNICIAN`, `APPROVAL_DATE` (seconds
since the epoch), `DURATION_SEC`, `CASE_NUMBER`. -/
structure ApprovalRecord where
  technician : String
  approvalDate : Int
  durationSec : ℚ
  caseNumber : Nat
deriving DecidableEq, Repr

/-- Placeholder record used only as the default of `List.getD`. -/
def dummyRec : ApprovalRecord := ⟨"", 0, 0, 0⟩

/-! ## Filter stage (appp.py lines 42-48) -/

/-- `pd.to_datetime(date)` for a pure date: midnight (start of day) of day
index `day`, in epoch seconds. -/
def startOfDay (day : Int) : Int := day * 86400

/-- Seconds in a day, the `pd.Timedelta(days=1)` added to the end date. -/
def oneDay : Int := 86400

/-- Lines 46-48: keep rows of the selected technician whose timestamp lies
in `[start, end + 1 day)` where both bounds are midnights. -/
def filterRecords (df : List ApprovalRecord) (tech : String)
    (startDay endDay : Int) : List ApprovalRecord :=
  df.filter (fun r =>
    r.technician == tech
      && decide (startOfDay startDay ≤ r.approvalDate)
      && decide (r.approvalDate < startOfDay endDay + oneDay))

/-! ## Derived fields (appp.py lines 51-54) -/

/-- Line 51: `DURATION_MIN = DURATION_SEC / 60`. -/
def DURATION_MIN (r : ApprovalRecord) : ℚ := r.durationSec / 60

/-- Line 52: `FAST = DURATION_SEC < fast_threshold`. -/
def FAST (fastThreshold : ℚ) (r : ApprovalRecord) : Bool :=
  decide (r.durationSec < fastThreshold)

/-- Line 53: `SAME_SECOND = DURATION_SEC == 0`. -/
def SAME_SECOND (r : ApprovalRecord) : Bool := decide (r.durationSec = 0)

/-- Line 54: `SAME_MINUTE = DURATION_SEC < 60`. -/
def SAME_MINUTE (r : ApprovalRecord) : Bool := decide (r.durationSec < 60)

/-! ## Numeric helpers: pandas reductions and Python rounding -/

/-- `Series.mean()`: `NaN` (here `none`) on an empty series, else sum/count. -/
def seriesMean (l : List ℚ) : Option ℚ :=
  if l.length = 0 then none else some (l.sum / l.length)

/-- The mean of a boolean series times 100, as in
`(series).mean() * 100` applied to a comparison result; only meaningful on
nonempty input (the script guards every use with `len(d) > 0`). -/
def boolRate (d : List ApprovalRecord) (p : ApprovalRecord → Bool) : ℚ :=
  (((d.map (fun r => if p r then (1 : ℚ) else 0)).sum) / d.length) * 100

/-- `Series.median()`: sort the values; `NaN` (`none`) on empty input, the
middle element for odd length, the mean of the two middle elements for even
length. -/
def seriesMedian (l : List ℚ) : Option ℚ :=
  if l.length = 0 then none
  else
    let s := l.mergeSort (fun a b => decide (a ≤ b))
    let n := s.length
    some (if n % 2 = 1 then s.getD (n / 2) 0
          else (s.getD (n / 2 - 1) 0 + s.getD (n / 2) 0) / 2)

/-- Round a rational to the nearest integer, ties to the even integer
(Python's `round` semantics, modelled exactly over ℚ). -/
def roundHalfEven (x : ℚ) : Int :=
  let n := ⌊x⌋
  let frac := x - (n : ℚ)
  if frac < 1/2 then n
  else if 1/2 < frac then n + 1
  else if n % 2 = 0 then n else n + 1

/-- Python's `round(x, 2)`. -/
def round2 (x : ℚ) : ℚ := ((roundHalfEven (x * 100) : Int) : ℚ) / 100

/-! ## KPIs (appp.py lines 58-61) -/

/-- A KPI cell: the string `"N/A"` on an empty subset, else a number. -/
inductive KpiValue where
  | na : KpiValue
  | val : ℚ → KpiValue
deriving DecidableEq, Repr

/-- Line 59: `round(d["DURATION_SEC"].median(), 2) if len(d) > 0 else "N/A"`. -/
def kpiMedian (d : List ApprovalRecord) : KpiValue :=
  if 0 < d.length then
    KpiValue.val (round2 ((seriesMedian (d.map (·.durationSec))).getD 0))
  else KpiValue.na

/-- Line 60: `round(d["FAST"].mean() * 100, 2) if len(d) > 0 else "N/A"`. -/
def kpiPctFast (fastThreshold : ℚ) (d : List ApprovalRecord) : KpiValue :=
  if 0 < d.length then KpiValue.val (round2 (boolRate d (FAST fastThreshold)))
  else KpiValue.na

/-- Line 61: `round(d["SAME_MINUTE"].mean() * 100, 2) if len(d) > 0 else "N/A"`. -/
def kpiPctSameMinute (d : List ApprovalRecord) : KpiValue :=
  if 0 < d.length then KpiValue.val (round2 (boolRate d SAME_MINUTE))
  else KpiValue.na

/-! ## Fast-rate sweep (appp.py lines 127-128) -/

/-- Line 127: the fixed threshold list `[2, 5, 10, 30, 60]`. -/
def thresholds : List ℚ := [2, 5, 10, 30, 60]

/-- One entry of line 128: `(d["DURATION_SEC"] < t).mean() * 100`. -/
def fastRate (d : List ApprovalRecord) (t : ℚ) : ℚ :=
  boolRate d (fun r => decide (r.durationSec < t))

/-- Line 128: `rates = [(d["DURATION_SEC"] < t).mean() * 100 for t in thresholds]`. -/
def rates (d : List ApprovalRecord) : List ℚ := thresholds.map (fastRate d)

/-! ## Session segmenter (appp.py lines 147-157) -/

/-- Line 147: `d.sort_values("APPROVAL_DATE")`, a sort ascending by
timestamp (modelled as a stable sort). -/
def sortByDate (d : List ApprovalRecord) : List ApprovalRecord :=
  d.mergeSort (fun a b => decide (a.approvalDate ≤ b.approvalDate))

/-- Line 150: `GAP_MIN = DURATION_SEC / 60`. -/
def GAP_MIN (r : ApprovalRecord) : ℚ := r.durationSec / 60

/-- Line 151: `NEW_BLOCK = GAP_MIN >= 10`. -/
def NEW_BLOCK (r : ApprovalRecord) : Bool := decide (10 ≤ GAP_MIN r)

/-- The `NEW_BLOCK` flag as the 0/1 integer that `cumsum` adds up. -/
def newBlockNat (r : ApprovalRecord) : Nat := if NEW_BLOCK r then 1 else 0

/-- `Series.cumsum` with running total `acc`: each output element is the sum
of the input elements up to and including its position. -/
def cumsumFrom (acc : Nat) : List Nat → List Nat
  | [] => []
  | x :: xs => (acc + x) :: cumsumFrom (acc + x) xs

/-- Line 152: `BLOCK_ID = NEW_BLOCK.cumsum()` (as 0/1 integers). -/
def cumsum (l : List Nat) : List Nat := cumsumFrom 0 l

/-- The `BLOCK_ID` column of the sorted subset. -/
def blockIdsOf (d : List ApprovalRecord) : List Nat :=
  cumsum ((sortByDate d).map newBlockNat)

/-- The sorted subset paired with its `BLOCK_ID` column. -/
def blockTable (d : List ApprovalRecord) : List (Nat × ApprovalRecord) :=
  (blockIdsOf d).zip (sortByDate d)

/-- One row of the `block` dataframe of lines 154-157. -/
structure Block where
  blockId : Nat
  cases : Nat
  avg_gap : ℚ
deriving DecidableEq, Repr

/-- Lines 154-157: `groupby("BLOCK_ID").agg(cases=count, avg_gap=mean)`.
Group keys are the distinct `BLOCK_ID` values; since the ids are
non-decreasing, first-occurrence order coincides with the ascending key
order that pandas `groupby` produces. -/
def segmenterBlocks (d : List ApprovalRecord) : List Block :=
  let t := blockTable d
  ((t.map Prod.fst).dedup).map (fun i =>
    let grp := (t.filter (fun p => p.1 == i)).map Prod.snd
    { blockId := i
      cases := grp.length
      avg_gap := (grp.map (·.durationSec)).sum / grp.length })

/-! ## Worst-case extraction (appp.py line 208) -/

/-- Line 208: `d.sort_values("DURATION_SEC").head(50)` — the 50 records of
smallest duration, ascending. The model uses a stable sort, but the
program's default `kind='quicksort'` leaves the order of duration ties
unspecified, so no theorem may depend on this model's tie order (see the
C7 section). -/
def worstCases (d : List ApprovalRecord) : List ApprovalRecord :=
  (d.mergeSort (fun a b => decide (a.durationSec ≤ b.durationSec))).take 50

/-! ## Policy-change tab (appp.py lines 215-247) -/

/-- Line 215: `pd.Timestamp("2020-06-01")` in epoch seconds. -/
def cutoff : Int := 1590969600

/-- Line 217: `df[df["TECHNICIAN"] == "Arnold"]` — always from the FULL
table, not the filtered subset. -/
def arnoldRecords (df : List ApprovalRecord) : List ApprovalRecord :=
  df.filter (fun r => r.technician == "Arnold")

/-- Line 218: Arnold's records strictly before the cutoff. -/
def beforeRecords (df : List ApprovalRecord) : List ApprovalRecord :=
  (arnoldRecords df).filter (fun r => decide (r.approvalDate < cutoff))

/-- Line 219: Arnold's records at or after the cutoff. -/
def afterRecords (df : List ApprovalRecord) : List ApprovalRecord :=
  (arnoldRecords df).filter (fun r => decide (cutoff ≤ r.approvalDate))

/-- One row of the `summary` dataframe of lines 240-247: count, rounded mean
duration, rounded median duration, rounded percent fast (<10s); `none`
models the `NaN` pandas yields on an empty partition. -/
structure PeriodSummary where
  totalApprovals : Nat
  meanDuration : Option ℚ
  medianDuration : Option ℚ
  pctFast10 : Option ℚ
deriving DecidableEq, Repr

/-- Lines 242-246 for one partition: `len`, `round(mean, 2)`,
`round(median, 2)`, `round((DURATION_SEC < 10).mean() * 100, 2)`. -/
def periodSummary (part : List ApprovalRecord) : PeriodSummary :=
  { totalApprovals := part.length
    meanDuration := (seriesMean (part.map (·.durationSec))).map round2
    medianDuration := (seriesMedian (part.map (·.durationSec))).map round2
    pctFast10 :=
      (seriesMean (part.map (fun r => if r.durationSec < 10 then (1 : ℚ) else 0))).map
        (fun m => round2 (m * 100)) }

/-! ## The whole dashboard run -/

/-- The sidebar inputs: technician select, date range, fast threshold
(histogram clip and bins feed only the chart and are omitted). -/
structure SidebarState where
  tech : String
  startDay : Int
  endDay : Int
  fastThreshold : ℚ
deriving DecidableEq, Repr

/-- Everything the script computes from the data on one run; tabs that are
guarded by `if len(d) == 0` yield `none` on an empty subset. -/
structure DashboardOutputs where
  kpiApprovals : Nat
  kpiMedianSec : KpiValue
  kpiPctFastVal : KpiValue
  kpiPctSameMinuteVal : KpiValue
  fastRates : Option (List ℚ)
  blocks : Option (List Block)
  worst : Option (List ApprovalRecord)
  policyBefore : PeriodSummary
  policyAfter : PeriodSummary
deriving DecidableEq, Repr

/-- The straight-line script, lines 42-247: filter, KPIs, tab computations,
and the policy tab (which reads the full table `df`, never the filtered
subset `d`). -/
def runDashboard (df : List ApprovalRecord) (s : SidebarState) : DashboardOutputs :=
  let d := filterRecords df s.tech s.startDay s.endDay
  { kpiApprovals := d.length
    kpiMedianSec := kpiMedian d
    kpiPctFastVal := kpiPctFast s.fastThreshold d
    kpiPctSameMinuteVal := kpiPctSameMinute d
    fastRates := if d.length = 0 then none else some (rates d)
    blocks := if d.length = 0 then none else some (segmenterBlocks d)
    worst := if d.length = 0 then none else some (worstCases d)
    policyBefore := periodSummary (beforeRecords df)
    policyAfter := periodSummary (afterRecords df) }

/-! ## Helper lemmas -/

/-- A 0/1 indicator sum over ℚ counts the records satisfying the flag. -/
lemma sum_indicator_eq_countP (d : List ApprovalRecord) (p : ApprovalRecord → Bool) :
    (d.map (fun r => if p r then (1 : ℚ) else 0)).sum = (d.countP p : ℚ) := by
  induction d with
  | nil => simp
  | cons x xs ih =>
    by_cases h : p x <;> simp [List.countP_cons, h, ih, add_comm]

/-- `boolRate` is the satisfying fraction times 100. -/
lemma boolRate_eq_countP (d : List ApprovalRecord) (p : ApprovalRecord → Bool) :
    boolRate d p = ((d.countP p : ℚ) / d.length) * 100 := by
  rw [boolRate, sum_indicator_eq_countP]

/-- A pointwise-weaker flag yields a smaller `boolRate` on a nonempty subset. -/
lemma boolRate_mono (d : List ApprovalRecord) (hd : d ≠ [])
    {p q : ApprovalRecord → Bool} (h : ∀ r, p r = true → q r = true) :
    boolRate d p ≤ boolRate d q := by
  have hlen : (0 : ℚ) < d.length := by
    have := List.length_pos.mpr hd
    exact_mod_cast this
  rw [boolRate_eq_countP, boolRate_eq_countP]
  have hc : d.countP p ≤ d.countP q := List.countP_mono_left (fun x _ hx => h x hx)
  have hc' : ((d.countP p : ℚ)) ≤ (d.countP q : ℚ) := by exact_mod_cast hc
  exact mul_le_mul_of_nonneg_right (div_le_div_of_nonneg_right hc' hlen.le) (by norm_num)

/-! ## Claim C5 — filter stage -/

/-- C5: the Filter Stage returns exactly the records of the selected
technician whose timestamp lies in the half-open window
`[startOfDay start, startOfDay end + 1 day)`; any time of day on the end
date is included, and exactly `startOfDay end + 1 day` is excluded. -/
theorem C5_filter_stage (df : List ApprovalRecord) (tech : String)
    (startDay endDay : Int) :
    (∀ r, r ∈ filterRecords df tech startDay endDay ↔
        r ∈ df ∧ r.technician = tech ∧ startOfDay startDay ≤ r.approvalDate ∧
          r.approvalDate < startOfDay endDay + oneDay) ∧
    (∀ r ∈ df, r.technician = tech → startOfDay startDay ≤ r.approvalDate →
      ∀ off : Int, 0 ≤ off → off < oneDay →
        r.approvalDate = startOfDay endDay + off →
        r ∈ filterRecords df tech startDay endDay) ∧
    (∀ r, r.approvalDate = startOfDay endDay + oneDay →
      r ∉ filterRecords df tech startDay endDay) := by
  have hmem : ∀ r, r ∈ filterRecords df tech startDay endDay ↔
      r ∈ df ∧ r.technician = tech ∧ startOfDay startDay ≤ r.approvalDate ∧
        r.approvalDate < startOfDay endDay + oneDay := by
    intro r
    simp [filterRecords, List.mem_filter, and_assoc]
  refine ⟨hmem, ?_, ?_⟩
  · intro r hr htech hstart off hoff hlt heq
    exact (hmem r).mpr ⟨hr, htech, hstart, by omega⟩
  · intro r heq hmem'
    have := ((hmem r).mp hmem').2.2.2
    omega

/-- C5 witness: a concrete record timestamped 5000 seconds into the end
date is returned by the filter. -/
theorem C5_filter_stage_witness :
    (⟨"Arnold", 869000, 30, 1⟩ : ApprovalRecord) ∈
      filterRecords [⟨"Arnold", 869000, 30, 1⟩] "Arnold" 0 10 :=
  (C5_filter_stage [⟨"Arnold", 869000, 30, 1⟩] "Arnold" 0 10).2.1
    ⟨"Arnold", 869000, 30, 1⟩ (by simp) rfl (by decide) 5000 (by decide)
    (by decide) (by decide)

/-! ## Claim C6 — fast-rate sweep monotonicity -/

/-- C6: on a nonempty subset the sweep over thresholds `[2, 5, 10, 30, 60]`
is non-decreasing from each threshold to the next. -/
theorem C6_sweep_monotone (d : List ApprovalRecord) (hd : d ≠ []) :
    List.Chain' (· ≤ ·) (rates d) := by
  have m : ∀ t t' : ℚ, t ≤ t' → fastRate d t ≤ fastRate d t' := by
    intro t t' h
    refine boolRate_mono d hd (fun r hr => ?_)
    simp only [decide_eq_true_eq] at hr ⊢
    linarith
  simp only [rates, thresholds, List.map_cons, List.map_nil, List.chain'_cons,
    List.chain'_singleton, and_true]
  exact ⟨m 2 5 (by norm_num), m 5 10 (by norm_num), m 10 30 (by norm_num),
    m 30 60 (by norm_num)⟩

/-- C6 witness: the sweep on a concrete one-record subset is a
non-decreasing chain. -/
theorem C6_sweep_monotone_witness :
    List.Chain' (· ≤ ·) (rates [⟨"Arnold", 0, 7, 1⟩]) :=
  C6_sweep_monotone [⟨"Arnold", 0, 7, 1⟩] (List.cons_ne_nil _ _)

/-! ## Claim C8 — empty subsets yield undefined values, not exceptions -/

/-- C8: on the empty subset the median KPI and the percentage KPIs report
`N/A`, the pandas mean/median reductions report `NaN` (`none`), and the
before/after summary of an empty partition has count 0 and undefined mean,
median and fast rate; nothing raises. -/
theorem C8_empty_guarded :
    kpiMedian [] = KpiValue.na ∧
    (∀ th : ℚ, kpiPctFast th [] = KpiValue.na) ∧
    kpiPctSameMinute [] = KpiValue.na ∧
    seriesMean [] = none ∧
    seriesMedian [] = none ∧
    periodSummary [] =
      { totalApprovals := 0, meanDuration := none,
        medianDuration := none, pctFast10 := none } :=
  ⟨rfl, fun _ => rfl, rfl, rfl, rfl, rfl⟩

/-! ## Claim C9 — policy summary ignores the sidebar filters -/

/-- A Boolean flag and its negation split a list's length. -/
lemma length_filter_split {α : Type} (l : List α) (p : α → Bool) :
    (l.filter p).length + (l.filter (fun r => !(p r))).length = l.length := by
  induction l with
  | nil => rfl
  | cons x xs ih => by_cases h : p x <;> simp [List.filter_cons, h, ← ih] <;> omega

/-- Splitting Arnold's history at the cutoff is a partition by count. -/
lemma before_after_split (df : List ApprovalRecord) :
    (beforeRecords df).length + (afterRecords df).length =
      (arnoldRecords df).length := by
  have h : afterRecords df
      = (arnoldRecords df).filter (fun r => !(decide (r.approvalDate < cutoff))) := by
    unfold afterRecords
    apply List.filter_congr
    intro x _
    by_cases hc : x.approvalDate < cutoff
    · simp [hc, show ¬ (cutoff ≤ x.approvalDate) by omega]
    · simp [hc, show cutoff ≤ x.approvalDate by omega]
  rw [beforeRecords, h, length_filter_split]

/-- C9: two runs over the same full table that differ only in the sidebar
state produce the same before/after policy summary, and the two partition
counts sum to Arnold's total record count. -/
theorem C9_policy_independent (df : List ApprovalRecord) (s1 s2 : SidebarState) :
    (runDashboard df s1).policyBefore = (runDashboard df s2).policyBefore ∧
    (runDashboard df s1).policyAfter = (runDashboard df s2).policyAfter ∧
    (runDashboard df s1).policyBefore.totalApprovals
        + (runDashboard df s1).policyAfter.totalApprovals
      = (arnoldRecords df).length := by
  refine ⟨rfl, rfl, ?_⟩
  simpa [runDashboard, periodSummary] using before_after_split df

/-! ## Segmenter lemmas -/

/-- `cumsum` preserves length. -/
lemma cumsumFrom_length (a : Nat) (l : List Nat) :
    (cumsumFrom a l).length = l.length := by
  induction l generalizing a with
  | nil => rfl
  | cons x xs ih => simp [cumsumFrom, ih]

/-- Every element of a running sum is at least the starting total. -/
lemma cumsumFrom_head_le (a : Nat) (l : List Nat) :
    ∀ z ∈ (cumsumFrom a l).head?, a ≤ z := by
  cases l with
  | nil => simp [cumsumFrom]
  | cons x xs =>
    intro z hz
    simp [cumsumFrom] at hz
    omega

/-- A running sum of naturals is non-decreasing. -/
lemma chain_cumsumFrom (a : Nat) (l : List Nat) :
    List.Chain' (· ≤ ·) (cumsumFrom a l) := by
  induction l generalizing a with
  | nil => simp [cumsumFrom]
  | cons x xs ih =>
    rw [cumsumFrom]
    exact List.chain'_cons'.mpr ⟨cumsumFrom_head_le (a + x) xs, ih (a + x)⟩

/-- Each entry of a running sum is the previous entry plus the new addend. -/
lemma cumsumFrom_getD_succ : ∀ (a : Nat) (l : List Nat) (i : Nat), i + 1 < l.length →
    (cumsumFrom a l).getD (i + 1) 0 = (cumsumFrom a l).getD i 0 + l.getD (i + 1) 0 := by
  intro a l
  induction l generalizing a with
  | nil => intro i h; simp at h
  | cons x xs ih =>
    intro i h
    cases i with
    | zero =>
      cases xs with
      | nil => simp at h
      | cons y ys => simp [cumsumFrom]
    | succ j =>
      have h' : j + 1 < xs.length := by simpa using h
      simp only [cumsumFrom, List.getD_cons_succ]
      exact ih (a + x) j h'

/-- `getD` through `map newBlockNat`, inside the bounds. -/
lemma getD_map_newBlockNat (l : List ApprovalRecord) (i : Nat) (h : i < l.length) :
    (l.map newBlockNat).getD i 0 = newBlockNat (l.getD i dummyRec) := by
  induction l generalizing i with
  | nil => simp at h
  | cons x xs ih =>
    cases i with
    | zero => rfl
    | succ j =>
      simp only [List.map_cons, List.getD_cons_succ]
      exact ih j (by simpa using h)

/-- Sorting does not change the number of records. -/
lemma sortByDate_length (d : List ApprovalRecord) :
    (sortByDate d).length = d.length := by
  simp [sortByDate]

/-- The `BLOCK_ID` column has one entry per record. -/
lemma blockIdsOf_length (d : List ApprovalRecord) :
    (blockIdsOf d).length = d.length := by
  rw [blockIdsOf, cumsum, cumsumFrom_length, List.length_map, sortByDate_length]

/-- The `NEW_BLOCK` flag tests `durationSeconds ≥ 600` (the `GAP_MIN ≥ 10`
comparison over ℚ). -/
lemma NEW_BLOCK_iff (r : ApprovalRecord) :
    NEW_BLOCK r = true ↔ 600 ≤ r.durationSec := by
  rw [NEW_BLOCK, decide_eq_true_eq, GAP_MIN,
    le_div_iff₀ (show (0 : ℚ) < 60 by norm_num)]
  norm_num

/-- The 0/1 flag as a plain comparison on the duration. -/
lemma newBlockNat_eq (r : ApprovalRecord) :
    newBlockNat r = if 600 ≤ r.durationSec then 1 else 0 := by
  rw [newBlockNat]
  by_cases h : (600 : ℚ) ≤ r.durationSec
  · rw [if_pos ((NEW_BLOCK_iff r).mpr h), if_pos h]
  · rw [if_neg (fun hb => h ((NEW_BLOCK_iff r).mp hb)), if_neg h]

/-! ## Claim C1 — block ids: monotone, but the first id is the first flag -/

/-- C1 counterexample: on the single record of duration 700 (≥ 600) the
claimed conjunction fails — `cumsum` gives the first record block id 1,
not 0. -/
theorem C1_counterexample :
    ¬ (List.Chain' (· ≤ ·) (blockIdsOf [⟨"Arnold", 0, 700, 1⟩]) ∧
       (blockIdsOf [⟨"Arnold", 0, 700, 1⟩]).getD 0 0 = 0) := by
  intro h
  have h2 := h.2
  have hb : blockIdsOf [(⟨"Arnold", 0, 700, 1⟩ : ApprovalRecord)] = [1] := by
    have hs : sortByDate [(⟨"Arnold", 0, 700, 1⟩ : ApprovalRecord)]
        = [⟨"Arnold", 0, 700, 1⟩] := by
      simp [sortByDate]
    rw [blockIdsOf, hs]
    norm_num [cumsum, cumsumFrom, newBlockNat_eq]
  rw [hb] at h2
  simp at h2

/-- C1 (amended): block ids in chronological order are non-decreasing, and
the first record's block id is its own `NEW_BLOCK` flag — 0 when its
duration is < 600, but 1 when its duration is ≥ 600. -/
theorem C1_block_ids_amended (d : List ApprovalRecord) (hd : d ≠ []) :
    List.Chain' (· ≤ ·) (blockIdsOf d) ∧
    (blockIdsOf d).getD 0 0 = newBlockNat ((sortByDate d).getD 0 dummyRec) := by
  constructor
  · rw [blockIdsOf, cumsum]
    exact chain_cumsumFrom 0 _
  · have hs : sortByDate d ≠ [] := by
      intro h
      apply hd
      have hl := congrArg List.length h
      rw [sortByDate_length] at hl
      exact List.length_eq_zero.mp hl
    obtain ⟨x, xs, hxx⟩ := List.exists_cons_of_ne_nil hs
    rw [blockIdsOf, hxx]
    simp [cumsum, cumsumFrom]

/-- C1 witness: the amended statement at a concrete single record. -/
theorem C1_block_ids_amended_witness :
    List.Chain' (· ≤ ·) (blockIdsOf [⟨"Arnold", 0, 5, 1⟩]) ∧
    (blockIdsOf [⟨"Arnold", 0, 5, 1⟩]).getD 0 0
      = newBlockNat ((sortByDate [⟨"Arnold", 0, 5, 1⟩]).getD 0 dummyRec) :=
  C1_block_ids_amended [⟨"Arnold", 0, 5, 1⟩] (List.cons_ne_nil _ _)

/-! ## Claim C4 — the 600-second boundary is inclusive -/

/-- C4: `NEW_BLOCK` holds exactly when the duration is ≥ 600 seconds (so
exactly 600 opens a block), and any later record of duration exactly 600
gets a block id one larger than its predecessor's. -/
theorem C4_inclusive_boundary :
    (∀ r : ApprovalRecord, NEW_BLOCK r = true ↔ 600 ≤ r.durationSec) ∧
    (∀ (d : List ApprovalRecord) (i : Nat), i + 1 < d.length →
      ((sortByDate d).getD (i + 1) dummyRec).durationSec = 600 →
      (blockIdsOf d).getD (i + 1) 0 = (blockIdsOf d).getD i 0 + 1) := by
  refine ⟨NEW_BLOCK_iff, ?_⟩
  intro d i h h600
  have hlen : i + 1 < ((sortByDate d).map newBlockNat).length := by
    rw [List.length_map, sortByDate_length]
    exact h
  rw [blockIdsOf, cumsum, cumsumFrom_getD_succ 0 _ i hlen,
    getD_map_newBlockNat _ _ (by rw [sortByDate_length]; exact h),
    newBlockNat, if_pos ((NEW_BLOCK_iff _).mpr (le_of_eq h600.symm))]

/-- C4 witness: with a sorted pair whose second record lasts exactly 600
seconds, the second block id is the first plus one. -/
theorem C4_inclusive_boundary_witness :
    (blockIdsOf [⟨"Arnold", 0, 5, 1⟩, ⟨"Arnold", 100, 600, 2⟩]).getD 1 0
      = (blockIdsOf [⟨"Arnold", 0, 5, 1⟩, ⟨"Arnold", 100, 600, 2⟩]).getD 0 0 + 1 :=
  C4_inclusive_boundary.2 [⟨"Arnold", 0, 5, 1⟩, ⟨"Arnold", 100, 600, 2⟩] 0
    (by norm_num)
    (by rw [show sortByDate [⟨"Arnold", 0, 5, 1⟩, ⟨"Arnold", 100, 600, 2⟩]
            = [⟨"Arnold", 0, 5, 1⟩, ⟨"Arnold", 100, 600, 2⟩] from
          List.mergeSort_of_sorted (by simp [List.pairwise_cons])]
        rfl)

/-! ## Claim C3 — blocks partition the input -/

/-- Summing, over a duplicate-free key list covering every row, the sizes of
the per-key groups gives back the number of rows. -/
lemma sum_counts_eq_length :
    ∀ (ks : List Nat) (t : List (Nat × ApprovalRecord)), ks.Nodup →
      (∀ p ∈ t, p.1 ∈ ks) →
      (ks.map (fun k => (t.filter (fun p => p.1 == k)).length)).sum = t.length := by
  intro ks
  induction ks with
  | nil =>
    intro t _ hcov
    cases t with
    | nil => rfl
    | cons p t' => exact absurd (hcov p (List.mem_cons_self p t')) (List.not_mem_nil _)
  | cons k ks ih =>
    intro t hnd hcov
    have hk : k ∉ ks := (List.nodup_cons.mp hnd).1
    have hnd' : ks.Nodup := (List.nodup_cons.mp hnd).2
    have hcov' : ∀ p ∈ t.filter (fun p => !(p.1 == k)), p.1 ∈ ks := by
      intro p hp
      have hmem := List.mem_filter.mp hp
      have h2 : ¬ (p.1 = k) := by simpa using hmem.2
      rcases List.mem_cons.mp (hcov p hmem.1) with h | h
      · exact absurd h h2
      · exact h
    have htail : ∀ k' ∈ ks, (t.filter (fun p => p.1 == k')).length
        = ((t.filter (fun p => !(p.1 == k))).filter (fun p => p.1 == k')).length := by
      intro k' hk'
      have hne : k' ≠ k := fun h => hk (h ▸ hk')
      rw [List.filter_filter]
      congr 1
      apply List.filter_congr
      intro p _
      by_cases h : p.1 = k'
      · simp [h, hne]
      · simp [h]
    rw [List.map_cons, List.sum_cons,
      List.map_congr_left htail,
      ih (t.filter (fun p => !(p.1 == k))) hnd' hcov',
      ← length_filter_split t (fun p => p.1 == k)]

/-- C3: the `caseCount` values of the produced blocks sum to the number of
records in the input subset — the groups are a partition. -/
theorem C3_blocks_partition (d : List ApprovalRecord) :
    ((segmenterBlocks d).map (·.cases)).sum = d.length := by
  simp only [segmenterBlocks, List.map_map, Function.comp_def, List.length_map]
  rw [sum_counts_eq_length _ _ (List.nodup_dedup _)
    (fun p hp => (List.mem_dedup).mpr (List.mem_map_of_mem Prod.fst hp))]
  rw [blockTable, List.length_zip, blockIdsOf_length, sortByDate_length, Nat.min_self]

/-! ## Claim C2 — the worked example [5, 700, 3, 4] -/

/-- C2: on any four chronologically ordered records with durations
5, 700, 3, 4 the segmenter yields exactly two blocks — one of 1 case with
average gap 5, one of 3 cases with average gap (700+3+4)/3. -/
theorem C2_example (r1 r2 r3 r4 : ApprovalRecord)
    (h12 : r1.approvalDate ≤ r2.approvalDate)
    (h23 : r2.approvalDate ≤ r3.approvalDate)
    (h34 : r3.approvalDate ≤ r4.approvalDate)
    (hd1 : r1.durationSec = 5) (hd2 : r2.durationSec = 700)
    (hd3 : r3.durationSec = 3) (hd4 : r4.durationSec = 4) :
    (segmenterBlocks [r1, r2, r3, r4]).map (fun b => (b.cases, b.avg_gap))
      = [(1, 5), (3, 707 / 3)] := by
  have hs : sortByDate [r1, r2, r3, r4] = [r1, r2, r3, r4] :=
    List.mergeSort_of_sorted (by
      simp only [List.pairwise_cons, List.forall_mem_cons, List.forall_mem_nil,
        decide_eq_true_eq, and_true, true_and]
      exact ⟨⟨h12, by omega, by omega, by simp⟩, ⟨h23, by omega, by simp⟩,
        ⟨h34, by simp⟩, by simp, List.Pairwise.nil⟩)
  have hflags : [r1, r2, r3, r4].map newBlockNat = [0, 1, 0, 0] := by
    norm_num [newBlockNat_eq, hd1, hd2, hd3, hd4]
  have hids : blockIdsOf [r1, r2, r3, r4] = [0, 1, 1, 1] := by
    rw [blockIdsOf, hs, hflags]
    rfl
  have ht : blockTable [r1, r2, r3, r4] = [(0, r1), (1, r2), (1, r3), (1, r4)] := by
    rw [blockTable, hids, hs]
    rfl
  simp only [segmenterBlocks, ht]
  norm_num [List.dedup_cons_of_mem, List.dedup_cons_of_not_mem, hd1, hd2, hd3, hd4]

/-- C2 witness: the example at concrete records. -/
theorem C2_example_witness :
    (segmenterBlocks [⟨"Arnold", 0, 5, 1⟩, ⟨"Arnold", 100, 700, 2⟩,
        ⟨"Arnold", 200, 3, 3⟩, ⟨"Arnold", 300, 4, 4⟩]).map
      (fun b => (b.cases, b.avg_gap)) = [(1, 5), (3, 707 / 3)] :=
  C2_example _ _ _ _ (by norm_num) (by norm_num) (by norm_num) rfl rfl rfl rfl

/-! ## Claim C7 — worst-case extraction: stable tie-break not guaranteed

Line 208 sorts with `sort_values`'s default `kind='quicksort'` (numpy
introsort), which pandas documents as not stable — only
`kind='mergesort'`/`'stable'` keeps equal keys in their original order.
The spec nevertheless requires "ties broken by stable original order", so
the missing sort kind is a defect in the code, not a property to prove:
no theorem below relies on the tie order of the modelled sort.

The failing input is a subset of 17 records all tied at the same duration:
17 exceeds numpy's insertion-sort cutoff for introsort, whose partition
step then swaps tied rows (the middle row to the second-to-last position,
then further pairwise swaps), so the rows come back permuted rather than
in original order. -/

/-- The failing input for C7: 17 records of one technician, timestamps
`0, 100, …, 1600`, all with duration 5 seconds, case numbers 1 to 17. -/
def d17tied : List ApprovalRecord :=
  (List.range 17).map (fun (i : Nat) =>
    { technician := "Arnold", approvalDate := 100 * (i : Int),
      durationSec := 5, caseNumber := i + 1 })

/-- C7 (code bug), evaluation at the failing input: the extraction returns
all 17 tied records with all durations equal. Every fact stated here is
invariant under the sort's tie order; the tie order itself — the claim's
stable-tie-break conjunct — is exactly what the code's default sort kind
leaves unspecified, so nothing stronger is provable from the program. -/
theorem C7_failing_input_eval :
    List.Perm (worstCases d17tied) d17tied ∧
    (worstCases d17tied).map (fun r => r.durationSec) = List.replicate 17 5 := by
  have hdur : ∀ r ∈ d17tied, r.durationSec = 5 := by
    intro r hr
    rw [d17tied] at hr
    obtain ⟨i, _, rfl⟩ := List.mem_map.mp hr
    rfl
  have hlen : d17tied.length = 17 := by
    rw [d17tied, List.length_map, List.length_range]
  have hsorted : List.Pairwise
      (fun a b : ApprovalRecord => decide (a.durationSec ≤ b.durationSec) = true)
      d17tied := by
    apply List.pairwise_of_forall_mem_list
    intro a ha b hb
    rw [decide_eq_true_eq, hdur a ha, hdur b hb]
  have hw : worstCases d17tied = d17tied := by
    rw [worstCases, List.mergeSort_of_sorted hsorted,
      List.take_of_length_le (by rw [hlen]; norm_num)]
  constructor
  · rw [hw]
  rw [hw, List.eq_replicate_iff]
  refine ⟨by rw [List.length_map, hlen], ?_⟩
  intro b hb
  obtain ⟨r, hr, rfl⟩ := List.mem_map.mp hb
  exact hdur r hr

/-! ## Claim C10 — sweep value at 60 vs the % Same Minute KPI -/

/-- C10 counterexample: with durations `[1, 60, 60]` the sweep entry at
threshold 60 is 100/3, while the `% Same Minute` KPI is the rounded value
33.33 — the two cells are not equal, only equal up to the KPI's rounding. -/
theorem C10_counterexample :
    ¬ (KpiValue.val
          ((rates [⟨"Arnold", 0, 1, 1⟩, ⟨"Arnold", 100, 60, 2⟩,
            ⟨"Arnold", 200, 60, 3⟩]).getD 4 0)
        = kpiPctSameMinute [⟨"Arnold", 0, 1, 1⟩, ⟨"Arnold", 100, 60, 2⟩,
            ⟨"Arnold", 200, 60, 3⟩]) := by
  norm_num [rates, thresholds, fastRate, boolRate, kpiPctSameMinute,
    SAME_MINUTE, round2, roundHalfEven]

/-- C10 (amended): the sweep entry at threshold 60 and the `% Same Minute`
KPI are computed from the same predicate `durationSeconds < 60` — the KPI
equals the sweep value after the KPI's rounding to 2 decimal places. -/
theorem C10_amended (d : List ApprovalRecord) (hd : d ≠ []) :
    kpiPctSameMinute d = KpiValue.val (round2 ((rates d).getD 4 0)) ∧
    (rates d).getD 4 0 = boolRate d SAME_MINUTE ∧
    (∀ r, SAME_MINUTE r = decide (r.durationSec < 60)) := by
  have h4 : (rates d).getD 4 0 = fastRate d 60 := by
    simp [rates, thresholds]
  have hsm : fastRate d 60 = boolRate d SAME_MINUTE := rfl
  refine ⟨?_, by rw [h4, hsm], fun r => rfl⟩
  rw [kpiPctSameMinute, if_pos (List.length_pos.mpr hd), h4, hsm]

/-- C10 witness: the amended statement at a concrete one-record subset. -/
theorem C10_amended_witness :
    kpiPctSameMinute [⟨"Arnold", 0, 7, 1⟩]
      = KpiValue.val (round2 ((rates [⟨"Arnold", 0, 7, 1⟩]).getD 4 0)) :=
  (C10_amended [⟨"Arnold", 0, 7, 1⟩] (List.cons_ne_nil _ _)).1

end ClearCheck
